import Mathlib

/-!
Verification of the slinkity bundling adapter (`packages/slinkity/src/vite.cts`).

The file shallowly embeds the five cores of that module:

* `getPropsModContents` — the props virtual-module generator;
* `injectHeadTransform` — the head-injection HTML transform of
  `slinkityInjectHeadPlugin`;
* `mergeRendererConfigs` — the renderer-config fold (with a model of the
  external `vite.mergeConfig`);
* `coordStep` / `coordRun` — a state machine for the single-flight dev-server
  coordinator returned by `createViteServer`;
* `productionBuild` — the rename / glob / build / cleanup pipeline over an
  abstract two-location filesystem state.

External collaborators (`JSON.stringify`, `vite.mergeConfig`, the filesystem,
the bundler) are modelled explicitly and named below.
-/

/-! ## Props virtual module (`getPropsModContents`) -/

/-- Model of the external `JSON.stringify` escaping of one character of a
string value: `"` and `\` get a backslash, the usual control shorthands
`\b \t \n \f \r` are used, remaining control characters become `\u00XX`,
and every other character is emitted as itself. -/
def jsonEscapeChar (c : Char) : String :=
  if c = '"' then "\\\""
  else if c = '\\' then "\\\\"
  else if c = '\x08' then "\\b"
  else if c = '\x09' then "\\t"
  else if c = '\x0a' then "\\n"
  else if c = '\x0c' then "\\f"
  else if c = '\x0d' then "\\r"
  else if c.toNat < 0x20 then
    "\\u00" ++ String.singleton (Nat.digitChar (c.toNat / 16))
      ++ String.singleton (Nat.digitChar (c.toNat % 16))
  else String.singleton c

/-- Model of the external `JSON.stringify` applied to a string value. -/
def jsonStringify (s : String) : String :=
  "\"" ++ String.join (s.data.map jsonEscapeChar) ++ "\""

/-- One entry of the per-page `props` record.  In the source the serialized value
is produced by the thunk `getSerializedValue(): string`; the field
`getSerializedValue` holds the raw source text that thunk returns. -/
structure PropEntry where
  name : String
  getSerializedValue : String
  deriving DecidableEq, Repr

/-- A per-page `PageProps` record: `hasStore`, the `props` mapping from
client prop id to entry, and the insertion-ordered id set `clientPropIds`
(modelled as a list in iteration order). -/
structure PageProps where
  hasStore : Bool
  props : String → PropEntry
  clientPropIds : List String

/-- The line emitted for one `clientPropId`:
`  ${JSON.stringify(clientPropId)}: { name: ${JSON.stringify(name)}, value: ${getSerializedValue()} },\n`. -/
def propsEntryLine (propInfo : PageProps) (clientPropId : String) : String :=
  let p := propInfo.props clientPropId
  "  " ++ jsonStringify clientPropId ++ ": \x7b name: " ++ jsonStringify p.name
    ++ ", value: " ++ p.getSerializedValue ++ " \x7d,\n"

/-- Embedding of `getPropsModContents`.  `storeClientMjs` stands for the text
the source reads from the fixed asset `./utils/store.client.mjs`;
`propsByInputPath` is the live map (`Map.get` returning `Option`).  The
string mutation of the source is rendered as a left fold over
`clientPropIds`; note that the closing brace and the store append happen
only inside the non-empty branch, exactly as in the source. -/
def getPropsModContents (storeClientMjs : String)
    (propsByInputPath : String → Option PageProps) (inputPath : String) : String :=
  let propsFileContents := "export default \x7b\n"
  match propsByInputPath inputPath with
  | some propInfo =>
    if propInfo.clientPropIds ≠ [] then
      let withEntries := propInfo.clientPropIds.foldl
        (fun acc clientPropId => acc ++ propsEntryLine propInfo clientPropId)
        propsFileContents
      let closed := withEntries ++ "\x7d"
      if propInfo.hasStore then closed ++ "\n" ++ storeClientMjs else closed
    else propsFileContents
  | none => propsFileContents

/-- Concatenation of the strings produced by `f` over a list, in order. -/
def concatMapString (f : α → String) : List α → String
  | [] => ""
  | a :: rest => f a ++ concatMapString f rest

/-- The complete export object a non-empty `PageProps` entry generates:
the shell, one `propsEntryLine` per client prop id in `clientPropIds`
order, and the closing brace. -/
def propsExportObject (propInfo : PageProps) : String :=
  "export default \x7b\n" ++ concatMapString (propsEntryLine propInfo) propInfo.clientPropIds ++ "\x7d"

/-! ## Head injector (`slinkityInjectHeadPlugin`) -/

/-- The `{ inputPath }` record stored in `pageByRelOutputPath`. -/
structure PageInfo where
  inputPath : String
  deriving DecidableEq, Repr

/-- The part of the bundler `transformIndexHtml` context the hook reads:
`originalUrl` (set by the dev server, absent in production builds) and
`path` (the output-relative path of the HTML file). -/
structure IndexHtmlTransformContext where
  originalUrl : Option String
  path : String
  deriving DecidableEq, Repr

/-- A `{ tag, attrs }` descriptor returned to the host transform mechanism. -/
structure HtmlTagDescriptor where
  tag : String
  attrs : List (String × String)
  deriving DecidableEq, Repr

/-- JavaScript truthiness of a `string | undefined` value: `undefined` and
the empty string are falsy. -/
def jsTruthyString : Option String → Bool
  | none => false
  | some s => !(s == "")

/-- Embedding of the `transform(html, ctx)` hook of
`slinkityInjectHeadPlugin`.  `cssUrlsByInputPath` models the live
`Map<string, Set<string>>` (a set appears as its insertion-ordered member
list); `pageByRelOutputPath` the `Map<string, { inputPath }>`.  The guards
mirror the source JS truthiness tests (`if (ctx.originalUrl)` and
`if (!inputPath)`); `if (!collectedCss)` only rules out an absent set, an
empty set maps to an empty descriptor list. -/
def injectHeadTransform (cssUrlsByInputPath : String → Option (List String))
    (pageByRelOutputPath : String → Option PageInfo)
    (html : String) (ctx : IndexHtmlTransformContext) : List HtmlTagDescriptor :=
  let inputPath : Option String :=
    if jsTruthyString ctx.originalUrl then ctx.originalUrl
    else (pageByRelOutputPath ctx.path).map PageInfo.inputPath
  match inputPath with
  | none => []
  | some ip =>
    if ip = "" then []
    else
      match cssUrlsByInputPath ip with
      | none => []
      | some collectedCss =>
        collectedCss.map (fun href => ⟨"link", [("rel", "stylesheet"), ("href", href)]⟩)

/-! ## Renderer config merge (`mergeRendererConfigs`) -/

/-- A JSON-like bundler configuration value: scalars (collapsed to strings,
their identity is irrelevant to the merge), arrays, objects with ordered
fields, and `null`. -/
inductive ConfigValue where
  | scalar (s : String)
  | arr (items : List ConfigValue)
  | obj (fields : List (String × ConfigValue))
  | nullv

/-- First value bound to `key` in an ordered field list. -/
def lookupField (fields : List (String × ConfigValue)) (key : String) : Option ConfigValue :=
  match fields.find? (fun f => f.1 == key) with
  | some f => some f.2
  | none => none

/-- Replace the value at `key` in place, preserving field order. -/
def setField (fields : List (String × ConfigValue)) (key : String) (v : ConfigValue) :
    List (String × ConfigValue) :=
  fields.map (fun f => if f.1 == key then (f.1, v) else f)

mutual
/-- Model of the external `vite.mergeConfig` value merge
(`mergeConfigRecursively`): a `null` override keeps the existing value,
two arrays concatenate, two objects merge field-wise recursively, and any
other override replaces the existing value. -/
def mergeValues : ConfigValue → ConfigValue → ConfigValue
  | x, ConfigValue.nullv => x
  | ConfigValue.arr xs, ConfigValue.arr ys => ConfigValue.arr (xs ++ ys)
  | ConfigValue.obj fs, ConfigValue.obj gs => ConfigValue.obj (mergeFieldList fs gs)
  | _, v => v

/-- Field-wise part of the `vite.mergeConfig` model: each override field is
folded onto the accumulated field list (`null` override fields are
skipped, a missing key is appended, a `null` existing value is replaced,
otherwise the two values merge via `mergeValues`). -/
def mergeFieldList (fs : List (String × ConfigValue)) :
    List (String × ConfigValue) → List (String × ConfigValue)
  | [] => fs
  | (key, v) :: rest =>
    let merged :=
      match v with
      | ConfigValue.nullv => fs
      | _ =>
        match lookupField fs key with
        | none => fs ++ [(key, v)]
        | some ConfigValue.nullv => setField fs key v
        | some existing => setField fs key (mergeValues existing v)
    mergeFieldList merged rest
end

/-- Model of the external `vite.mergeConfig(defaults, overrides)`. -/
def mergeConfig (defaults overrides : ConfigValue) : ConfigValue :=
  mergeValues defaults overrides

/-- A registered renderer: only its optional `viteConfig` fragment matters here. -/
structure Renderer where
  viteConfig : Option ConfigValue

/-- The user configuration: its optional ordered renderer list. -/
structure UserConfig where
  renderers : Option (List Renderer)

/-- Embedding of `mergeRendererConfigs`: fold `vite.mergeConfig` over
`userConfig?.renderers ?? []`, merging `renderer.viteConfig ?? {}` onto the
accumulator in registration order. -/
def mergeRendererConfigs (viteConfig : ConfigValue) (userConfig : UserConfig) : ConfigValue :=
  (userConfig.renderers.getD []).foldl
    (fun acc renderer => mergeConfig acc (renderer.viteConfig.getD (ConfigValue.obj [])))
    viteConfig

/-! ## Dev-server coordinator (`createViteServer().getOrInitialize`) -/

/-- State of one coordinator lifetime.  `viteServer` is the cached instance
(server instances are named by `Nat`); `awaitingServer` the queued resolver
list, identified by caller id; `createServerCalls` counts issued
`vite.createServer` calls; `resolved` records every delivered resolution
`(caller, server)` in delivery order, and `rejected` every delivered
rejection — the source constructs its promises with a resolver only and
attaches no rejection handler to the creation promise, so no transition
ever touches `rejected`. -/
structure CoordState where
  viteServer : Option Nat
  awaitingServer : List Nat
  createServerCalls : Nat
  resolved : List (Nat × Nat)
  rejected : List Nat
  deriving DecidableEq, Repr

/-- The state `createViteServer` closes over: no server, no queued
resolvers, no creation call issued. -/
def initCoordState : CoordState :=
  { viteServer := none, awaitingServer := [], createServerCalls := 0
    resolved := [], rejected := [] }

/-- Events of a coordinator lifetime: a call to `getOrInitialize` by caller
`c`; the `.then` callback of the single `vite.createServer` promise firing
with a server; that promise rejecting. -/
inductive CoordEvent where
  | call (caller : Nat)
  | createServerResolves (server : Nat)
  | createServerRejects
  deriving DecidableEq, Repr

/-- One step of the coordinator, read off `getOrInitialize` and the `.then`
callback:  a call with a cached server resolves immediately with it; a
call with no cached server issues `vite.createServer` exactly when the
queue is empty, then enqueues its resolver; the `.then` callback caches
the server and resolves every queued resolver in FIFO order (the source
never clears the array — irrelevant, later calls take the cached path);
a rejection runs no code at all (the creation promise has no rejection
handler), leaving the state unchanged. -/
def coordStep (st : CoordState) : CoordEvent → CoordState
  | CoordEvent.call caller =>
    match st.viteServer with
    | some server => { st with resolved := st.resolved ++ [(caller, server)] }
    | none =>
      let st1 :=
        if st.awaitingServer = [] then
          { st with createServerCalls := st.createServerCalls + 1 }
        else st
      { st1 with awaitingServer := st1.awaitingServer ++ [caller] }
  | CoordEvent.createServerResolves server =>
    { st with
        viteServer := some server
        resolved := st.resolved ++ st.awaitingServer.map (fun c => (c, server)) }
  | CoordEvent.createServerRejects => st

/-- Run a coordinator lifetime from the initial state over an event trace. -/
def coordRun (events : List CoordEvent) : CoordState :=
  events.foldl coordStep initCoordState

/-! ## Production build (`productionBuild`) -/

/-- The two filesystem locations `productionBuild` touches: the resolved
output directory and the eleventy temp build directory.  Each holds
`some files` (the relative names of the files it contains) or `none`
(absent). -/
structure BuildFsState where
  outputDir : Option (List String)
  tempBuildDir : Option (List String)
  deriving DecidableEq, Repr

/-- Model of `fs.promises.rename(resolvedOutput, eleventyTempBuildDir)`:
fails when the source is absent, otherwise moves the whole tree — the
output location becomes absent, the temp location receives the content. -/
def fsRename (fs : BuildFsState) : Except String BuildFsState :=
  match fs.outputDir with
  | none => Except.error "ENOENT: no such file or directory, rename"
  | some content => Except.ok { outputDir := none, tempBuildDir := some content }

/-- A file name matches the `*.html` glob exactly when its character list
ends in `.html`. -/
def isHtmlFile (f : String) : Bool :=
  ".html".data.isSuffixOf f.data

/-- Model of ``globSync(`${eleventyTempBuildDir}/**/*.html`)``: the `*.html`
files currently under the temp build directory. -/
def globHtmlEntries (fs : BuildFsState) : List String :=
  (fs.tempBuildDir.getD []).filter isHtmlFile

/-- Environment choice for the single awaited `vite.build` call: it either
succeeds, writing a built tree, or fails with an error. -/
inductive BundlerBehavior where
  | succeeds (written : List String)
  | fails (msg : String)
  deriving DecidableEq, Repr

/-- Model of `vite.build(viteConfig)`: on success the bundler writes the
built tree into `outDir` (the original output location, `emptyOutDir`);
on failure it raises, leaving the state as it was. -/
def viteBuild (bundler : BundlerBehavior) (fs : BuildFsState) : Except String BuildFsState :=
  match bundler with
  | BundlerBehavior.succeeds written => Except.ok { fs with outputDir := some written }
  | BundlerBehavior.fails msg => Except.error msg

/-- Model of `fs.promises.rm(eleventyTempBuildDir, { recursive: true })`. -/
def rmTempBuildDir (fs : BuildFsState) : BuildFsState :=
  { fs with tempBuildDir := none }

/-- The `try` block of `productionBuild`: glob the entries, raise
`"Output directory empty!"` when there are none, otherwise run the
bundler. -/
def productionBuildTryBlock (bundler : BundlerBehavior) (fs : BuildFsState) :
    Except String BuildFsState :=
  let inputFiles := globHtmlEntries fs
  if inputFiles = [] then Except.error "Output directory empty!"
  else viteBuild bundler fs

/-- Embedding of `productionBuild`: rename the output directory to the temp
build directory (a failed rename propagates before the `try` is entered),
then run the `try` block, and on every exit path of the `try` remove the
temp directory (`finally`) before returning the block result.  The
return value pairs the propagated result with the final filesystem
state. -/
def productionBuild (bundler : BundlerBehavior) (fs : BuildFsState) :
    Except String Unit × BuildFsState :=
  match fsRename fs with
  | Except.error e => (Except.error e, fs)
  | Except.ok fsRenamed =>
    match productionBuildTryBlock bundler fsRenamed with
    | Except.ok fsBuilt => (Except.ok (), rmTempBuildDir fsBuilt)
    | Except.error e => (Except.error e, rmTempBuildDir fsRenamed)

/-! ## Helper lemmas -/

theorem foldl_append_eq_concatMapString (f : α → String) (l : List α) (init : String) :
    l.foldl (fun acc a => acc ++ f a) init = init ++ concatMapString f l := by
  induction l generalizing init with
  | nil => simp [concatMapString, String.append_empty]
  | cons a rest ih =>
    simp only [List.foldl_cons, concatMapString, ih, String.append_assoc]

/-- Characterization of `getPropsModContents` on an input path whose entry
exists and has a non-empty `clientPropIds` set. -/
theorem getPropsModContents_eq (storeClientMjs : String)
    (propsByInputPath : String → Option PageProps) (inputPath : String) (propInfo : PageProps)
    (h : propsByInputPath inputPath = some propInfo) (hne : propInfo.clientPropIds ≠ []) :
    getPropsModContents storeClientMjs propsByInputPath inputPath =
      if propInfo.hasStore then propsExportObject propInfo ++ "\n" ++ storeClientMjs
      else propsExportObject propInfo := by
  simp only [getPropsModContents, h]
  rw [if_pos hne, foldl_append_eq_concatMapString]
  cases hs : propInfo.hasStore <;>
    simp [propsExportObject, String.append_assoc]

/-- Running call events from a state with no cached server and a non-empty
resolver queue only extends the queue: no `vite.createServer` call is
issued and nothing is resolved or rejected. -/
theorem coordRun_calls_pending (cs : List Nat) (queue : List Nat) (hq : queue ≠ [])
    (k : Nat) (rs : List (Nat × Nat)) (rj : List Nat) :
    (cs.map CoordEvent.call).foldl coordStep ⟨none, queue, k, rs, rj⟩ =
      ⟨none, queue ++ cs, k, rs, rj⟩ := by
  induction cs generalizing queue with
  | nil => simp
  | cons c rest ih =>
    have hstep : coordStep ⟨none, queue, k, rs, rj⟩ (CoordEvent.call c) =
        ⟨none, queue ++ [c], k, rs, rj⟩ := by
      simp [coordStep, hq]
    simp only [List.map_cons, List.foldl_cons, hstep]
    rw [ih (queue ++ [c]) (by simp)]
    simp

/-- Running call events from a state with a cached server resolves each
caller immediately with that server and changes nothing else. -/
theorem coordRun_calls_ready (cs : List Nat) (server : Nat) (queue : List Nat)
    (k : Nat) (rs : List (Nat × Nat)) (rj : List Nat) :
    (cs.map CoordEvent.call).foldl coordStep ⟨some server, queue, k, rs, rj⟩ =
      ⟨some server, queue, k, rs ++ cs.map (fun c => (c, server)), rj⟩ := by
  induction cs generalizing rs with
  | nil => simp
  | cons c rest ih =>
    have hstep : coordStep ⟨some server, queue, k, rs, rj⟩ (CoordEvent.call c) =
        ⟨some server, queue, k, rs ++ [(c, server)], rj⟩ := by
      simp [coordStep]
    simp only [List.map_cons, List.foldl_cons, hstep]
    rw [ih (rs ++ [(c, server)])]
    simp

/-- A non-empty burst of calls from the initial state issues exactly one
`vite.createServer` call and queues every caller, resolving none. -/
theorem coordRun_initial_calls (c : Nat) (cs : List Nat) :
    ((c :: cs).map CoordEvent.call).foldl coordStep initCoordState =
      ⟨none, c :: cs, 1, [], []⟩ := by
  have hstep : coordStep initCoordState (CoordEvent.call c) = ⟨none, [c], 1, [], []⟩ := rfl
  simp only [List.map_cons, List.foldl_cons, hstep]
  rw [coordRun_calls_pending cs [c] (by simp)]
  simp

/-- Merging an empty config fragment onto an object leaves it unchanged. -/
theorem mergeConfig_empty_obj (fields : List (String × ConfigValue)) :
    mergeConfig (ConfigValue.obj fields) (ConfigValue.obj []) = ConfigValue.obj fields := rfl

/-- Renderers without a `viteConfig` fragment leave the accumulated config
object unchanged. -/
theorem mergeRendererConfigs_no_fragments (baseFields : List (String × ConfigValue))
    (rs : List Renderer) (hnone : ∀ r ∈ rs, r.viteConfig = none) :
    mergeRendererConfigs (ConfigValue.obj baseFields) { renderers := some rs } =
      ConfigValue.obj baseFields := by
  induction rs with
  | nil => rfl
  | cons r rest ih =>
    have hr : r.viteConfig = none := hnone r (List.mem_cons_self r rest)
    have hrest : ∀ x ∈ rest, x.viteConfig = none := fun x hx =>
      hnone x (List.mem_cons_of_mem r hx)
    have ihr := ih hrest
    simp only [mergeRendererConfigs, Option.getD_some, List.foldl_cons] at ihr ⊢
    rw [hr]
    simpa [mergeConfig_empty_obj] using ihr

/-! ## Claims -/

/-- C1: for every number N of `getOrInitialize` calls made before server
creation completes, exactly one underlying `vite.createServer` call is
issued per coordinator lifetime, and every one of those N calls — as well
as every later call — resolves to the identical server instance. -/
theorem getOrInitialize_single_flight (callers laterCallers : List Nat) (server : Nat)
    (hne : callers ≠ []) :
    (coordRun (callers.map CoordEvent.call
        ++ CoordEvent.createServerResolves server :: laterCallers.map CoordEvent.call)).createServerCalls = 1
    ∧ (coordRun (callers.map CoordEvent.call
        ++ CoordEvent.createServerResolves server :: laterCallers.map CoordEvent.call)).resolved
      = (callers ++ laterCallers).map (fun c => (c, server)) := by
  obtain ⟨c, cs, rfl⟩ := List.exists_cons_of_ne_nil hne
  unfold coordRun
  rw [List.foldl_append, coordRun_initial_calls]
  simp only [List.foldl_cons]
  have hres : coordStep ⟨none, c :: cs, 1, [], []⟩ (CoordEvent.createServerResolves server) =
      ⟨some server, c :: cs, 1, (c :: cs).map (fun x => (x, server)), []⟩ := by
    simp [coordStep]
  rw [hres, coordRun_calls_ready]
  simp

/-- Witness for C1: two callers before creation completes and one after it,
creation resolving with server 99. -/
theorem getOrInitialize_single_flight_witness :
    (coordRun [CoordEvent.call 10, CoordEvent.call 11, CoordEvent.createServerResolves 99,
        CoordEvent.call 12]).createServerCalls = 1
    ∧ (coordRun [CoordEvent.call 10, CoordEvent.call 11, CoordEvent.createServerResolves 99,
        CoordEvent.call 12]).resolved = [(10, 99), (11, 99), (12, 99)] :=
  getOrInitialize_single_flight [10, 11] [12] 99 (by decide)

/-- C2: whenever the initial rename of the output directory succeeded, the
temp build directory is removed on every exit path of `productionBuild`
(bundler success, empty-entry fatal error, bundler failure alike): the
final filesystem state never retains the scratch directory. -/
theorem productionBuild_cleanup (bundler : BundlerBehavior) (fs : BuildFsState)
    (content : List String) (h : fs.outputDir = some content) :
    ((productionBuild bundler fs).2).tempBuildDir = none := by
  obtain ⟨o, t⟩ := fs
  have h₀ : o = some content := h
  subst h₀
  cases hb : productionBuildTryBlock bundler ⟨none, some content⟩ with
  | ok fsBuilt => simp [productionBuild, fsRename, hb, rmTempBuildDir]
  | error e => simp [productionBuild, fsRename, hb, rmTempBuildDir]

/-- Witness for C2: a bundler failure on a one-page output tree still ends
with the temp directory absent. -/
theorem productionBuild_cleanup_witness :
    ((productionBuild (BundlerBehavior.fails "bundler failure")
        ⟨some ["index.html"], none⟩).2).tempBuildDir = none :=
  productionBuild_cleanup (BundlerBehavior.fails "bundler failure")
    ⟨some ["index.html"], none⟩ ["index.html"] rfl

/-- C3: when the renamed tree holds zero `*.html` files, `productionBuild`
raises the fatal `"Output directory empty!"` error, the error propagates
after cleanup, and the original output location is left without its prior
content (the content was moved by the rename and the moved copy removed by
cleanup): the final state has both locations absent. -/
theorem productionBuild_empty_entries (bundler : BundlerBehavior) (fs : BuildFsState)
    (content : List String) (h : fs.outputDir = some content)
    (hempty : content.filter isHtmlFile = []) :
    productionBuild bundler fs =
      (Except.error "Output directory empty!", ⟨none, none⟩) := by
  obtain ⟨o, t⟩ := fs
  have h₀ : o = some content := h
  subst h₀
  have htry : productionBuildTryBlock bundler ⟨none, some content⟩ =
      Except.error "Output directory empty!" := by
    simp [productionBuildTryBlock, globHtmlEntries, hempty]
  simp [productionBuild, fsRename, htry, rmTempBuildDir]

/-- Witness for C3: an output tree holding only a stylesheet (no HTML)
produces the fatal empty error and leaves both locations absent. -/
theorem productionBuild_empty_entries_witness :
    productionBuild (BundlerBehavior.succeeds ["bundle.html"]) ⟨some ["style.css"], none⟩
      = (Except.error "Output directory empty!", ⟨none, none⟩) :=
  productionBuild_empty_entries (BundlerBehavior.succeeds ["bundle.html"])
    ⟨some ["style.css"], none⟩ ["style.css"] rfl (by decide)

/-- C4: if the underlying `vite.createServer` promise rejects, no caller
enqueued before the failure is ever resolved or rejected — the rejection
runs no coordinator code, and later calls only enqueue further (the queue
is non-empty, so no new creation starts that could resolve them): in every
such lifetime nothing at all is resolved or rejected.  Call events are the
only events possible after the failure, since the single creation promise
has already settled. -/
theorem getOrInitialize_rejection_stalls (callers laterCallers : List Nat)
    (hne : callers ≠ []) :
    (coordRun (callers.map CoordEvent.call
        ++ CoordEvent.createServerRejects :: laterCallers.map CoordEvent.call)).resolved = []
    ∧ (coordRun (callers.map CoordEvent.call
        ++ CoordEvent.createServerRejects :: laterCallers.map CoordEvent.call)).rejected = [] := by
  obtain ⟨c, cs, rfl⟩ := List.exists_cons_of_ne_nil hne
  unfold coordRun
  rw [List.foldl_append, coordRun_initial_calls]
  simp only [List.foldl_cons]
  have hrej : coordStep ⟨none, c :: cs, 1, [], []⟩ CoordEvent.createServerRejects =
      ⟨none, c :: cs, 1, [], []⟩ := rfl
  rw [hrej, coordRun_calls_pending laterCallers (c :: cs) (by simp)]
  exact ⟨rfl, rfl⟩

/-- Witness for C4: one caller queued before the rejection and one call
after it; nothing is resolved and nothing is rejected. -/
theorem getOrInitialize_rejection_stalls_witness :
    (coordRun [CoordEvent.call 21, CoordEvent.createServerRejects, CoordEvent.call 22]).resolved = []
    ∧ (coordRun [CoordEvent.call 21, CoordEvent.createServerRejects, CoordEvent.call 22]).rejected = [] :=
  getOrInitialize_rejection_stalls [21] [22] (by decide)

/-- C5: for an entry with non-empty `clientPropIds`, the generated module is
the export shell followed by exactly one `propsEntryLine` per
`clientPropId` in `clientPropIds` insertion order — each keyed by the
JSON-stringified prop id with the name JSON-stringified and the serialized
value inserted verbatim — plus the closing brace and, with `hasStore`, the
helper text; and the module text is a pure function of that entry (and the
fixed helper asset): any map and path resolving to the same entry yields
the identical text. -/
theorem getPropsModContents_emission (storeClientMjs : String)
    (propsByInputPath : String → Option PageProps) (inputPath : String) (propInfo : PageProps)
    (h : propsByInputPath inputPath = some propInfo) (hne : propInfo.clientPropIds ≠ []) :
    (getPropsModContents storeClientMjs propsByInputPath inputPath =
      if propInfo.hasStore then propsExportObject propInfo ++ "\n" ++ storeClientMjs
      else propsExportObject propInfo)
    ∧ ∀ (propsByInputPath₂ : String → Option PageProps) (inputPath₂ : String),
        propsByInputPath₂ inputPath₂ = some propInfo →
        getPropsModContents storeClientMjs propsByInputPath₂ inputPath₂ =
          getPropsModContents storeClientMjs propsByInputPath inputPath := by
  refine ⟨getPropsModContents_eq storeClientMjs propsByInputPath inputPath propInfo h hne, ?_⟩
  intro pbip₂ inputPath₂ h₂
  rw [getPropsModContents_eq storeClientMjs pbip₂ inputPath₂ propInfo h₂ hne,
    getPropsModContents_eq storeClientMjs propsByInputPath inputPath propInfo h hne]

/-- Witness for C5: a two-prop entry (`"a"` then `"b"`) generates the two
entry lines in insertion order with serialized values verbatim. -/
theorem getPropsModContents_emission_witness :
    getPropsModContents "STORE"
        (fun p => if p = "/post/" then
          some { hasStore := false
                 props := fun cid =>
                   if cid = "a" then ⟨"alpha", "fnA()"⟩ else ⟨"beta", "[1, 2]"⟩
                 clientPropIds := ["a", "b"] }
          else none) "/post/"
      = "export default \x7b\n  \"a\": \x7b name: \"alpha\", value: fnA() \x7d,\n  \"b\": \x7b name: \"beta\", value: [1, 2] \x7d,\n\x7d" := by
  have h := (getPropsModContents_emission "STORE"
    (fun p => if p = "/post/" then
      some { hasStore := false
             props := fun cid =>
               if cid = "a" then ⟨"alpha", "fnA()"⟩ else ⟨"beta", "[1, 2]"⟩
             clientPropIds := ["a", "b"] }
      else none) "/post/" _ rfl (by decide)).1
  exact h.trans (by decide)

/-- C6 (code bug evidence): for an entry with zero `clientPropIds`, and for
a path with no entry at all, the load hook emits only the opening shell
`export default {` plus newline — the text holds no closing brace, so it
is not a syntactically complete module exporting an empty object. -/
theorem getPropsModContents_zero_ids_incomplete :
    getPropsModContents "HELPER CONTENTS"
        (fun _ => some { hasStore := false, props := fun _ => ⟨"", ""⟩, clientPropIds := [] })
        "/page/"
      = "export default \x7b\n"
    ∧ getPropsModContents "HELPER CONTENTS" (fun _ => none) "/page/" = "export default \x7b\n"
    ∧ ("export default \x7b\n").data.contains '\x7d' = false :=
  ⟨rfl, rfl, by decide⟩

/-- C7 counterexample: an entry with `hasStore = true` but empty
`clientPropIds` generates a module that does not end with the helper
contents — the claim as stated fails for such entries. -/
theorem getPropsModContents_hasStore_no_ids_no_append :
    getPropsModContents "HELPER CONTENTS"
        (fun _ => some { hasStore := true, props := fun _ => ⟨"", ""⟩, clientPropIds := [] })
        "/page/"
      = "export default \x7b\n"
    ∧ ("HELPER CONTENTS".data.isSuffixOf ("export default \x7b\n").data) = false :=
  ⟨rfl, by decide⟩

/-- C7 (amended): for every entry with non-empty `clientPropIds`, if
`hasStore` is true the module text is the export object followed by a
newline and the exact helper asset contents, and if `hasStore` is false
the module text is the export object alone — no helper appended. -/
theorem getPropsModContents_storeAppend (storeClientMjs : String)
    (propsByInputPath : String → Option PageProps) (inputPath : String) (propInfo : PageProps)
    (h : propsByInputPath inputPath = some propInfo) (hne : propInfo.clientPropIds ≠ []) :
    (propInfo.hasStore = true →
      getPropsModContents storeClientMjs propsByInputPath inputPath =
        propsExportObject propInfo ++ "\n" ++ storeClientMjs)
    ∧ (propInfo.hasStore = false →
      getPropsModContents storeClientMjs propsByInputPath inputPath =
        propsExportObject propInfo) := by
  have hc := getPropsModContents_eq storeClientMjs propsByInputPath inputPath propInfo h hne
  constructor
  · intro hs
    rw [hc, hs]
    simp
  · intro hs
    rw [hc, hs]
    simp

/-- Witness for C7 (amended): a one-prop entry with `hasStore = true` ends
in the helper text. -/
theorem getPropsModContents_storeAppend_witness :
    getPropsModContents "HELPER CONTENTS"
        (fun _ => some { hasStore := true, props := fun _ => ⟨"n", "1"⟩, clientPropIds := ["p"] })
        "/page/"
      = "export default \x7b\n  \"p\": \x7b name: \"n\", value: 1 \x7d,\n\x7d\nHELPER CONTENTS" := by
  have h := (getPropsModContents_storeAppend "HELPER CONTENTS"
    (fun _ => some { hasStore := true, props := fun _ => ⟨"n", "1"⟩, clientPropIds := ["p"] })
    "/page/" _ rfl (by decide)).1 rfl
  exact h.trans (by decide)

/-- C8: in dev mode (a carried, hence non-empty, original request URL) the
URL itself is the input-path key; in build mode the output-relative path
is looked up in `pageByRelOutputPath`, contributing nothing when absent;
and with a resolved input path the hook emits exactly one stylesheet link
per URL of `cssUrlsByInputPath` at that key in set-iteration order,
contributing nothing when the set is absent or empty (`.getD []` makes
both cases the empty emission). -/
theorem injectHeadTransform_resolution (cssUrlsByInputPath : String → Option (List String))
    (pageByRelOutputPath : String → Option PageInfo) (html : String)
    (ctx : IndexHtmlTransformContext) :
    (∀ u, ctx.originalUrl = some u → u ≠ "" →
      injectHeadTransform cssUrlsByInputPath pageByRelOutputPath html ctx =
        ((cssUrlsByInputPath u).getD []).map
          (fun href => ⟨"link", [("rel", "stylesheet"), ("href", href)]⟩))
    ∧ (ctx.originalUrl = none → pageByRelOutputPath ctx.path = none →
      injectHeadTransform cssUrlsByInputPath pageByRelOutputPath html ctx = [])
    ∧ (∀ pageInfo, ctx.originalUrl = none → pageByRelOutputPath ctx.path = some pageInfo →
      pageInfo.inputPath ≠ "" →
      injectHeadTransform cssUrlsByInputPath pageByRelOutputPath html ctx =
        ((cssUrlsByInputPath pageInfo.inputPath).getD []).map
          (fun href => ⟨"link", [("rel", "stylesheet"), ("href", href)]⟩)) := by
  refine ⟨?_, ?_, ?_⟩
  · intro u hu hune
    cases hcss : cssUrlsByInputPath u <;>
      simp [injectHeadTransform, jsTruthyString, hu, hune, hcss]
  · intro hu hp
    simp [injectHeadTransform, jsTruthyString, hu, hp]
  · intro pageInfo hu hp hne
    cases hcss : cssUrlsByInputPath pageInfo.inputPath <;>
      simp [injectHeadTransform, jsTruthyString, hu, hp, hne, hcss]

/-- Witness for C8: the dev-mode scenario of the spec — original URL
`/blog/post/` with one collected stylesheet URL emits exactly one link
descriptor. -/
theorem injectHeadTransform_resolution_witness :
    injectHeadTransform
        (fun p => if p = "/blog/post/" then some ["/blog/post/index.css"] else none)
        (fun _ => none) "<html></html>"
        { originalUrl := some "/blog/post/", path := "blog/post/index.html" }
      = [⟨"link", [("rel", "stylesheet"), ("href", "/blog/post/index.css")]⟩] := by
  have h := (injectHeadTransform_resolution
    (fun p => if p = "/blog/post/" then some ["/blog/post/index.css"] else none)
    (fun _ => none) "<html></html>"
    { originalUrl := some "/blog/post/", path := "blog/post/index.html" }).1
    "/blog/post/" rfl (by decide)
  exact h.trans (by decide)

/-- C9: the renderer-config merge folds each fragment onto the accumulator
in registration order with array concatenation — base plugins `[P]` with
fragments `[{plugins: [Q]}, {plugins: [R]}]` yield the plugin list
`[P, Q, R]` — and renderers with no fragment leave the accumulated config
object unchanged. -/
theorem mergeRendererConfigs_merge_order (P Q R : ConfigValue)
    (baseFields : List (String × ConfigValue)) (rs : List Renderer)
    (hnone : ∀ r ∈ rs, r.viteConfig = none) :
    mergeRendererConfigs (ConfigValue.obj [("plugins", ConfigValue.arr [P])])
        { renderers := some
            [ { viteConfig := some (ConfigValue.obj [("plugins", ConfigValue.arr [Q])]) },
              { viteConfig := some (ConfigValue.obj [("plugins", ConfigValue.arr [R])]) } ] }
      = ConfigValue.obj [("plugins", ConfigValue.arr [P, Q, R])]
    ∧ mergeRendererConfigs (ConfigValue.obj baseFields) { renderers := some rs }
      = ConfigValue.obj baseFields := by
  constructor
  · simp [mergeRendererConfigs, mergeConfig, mergeValues, mergeFieldList, lookupField, setField]
  · exact mergeRendererConfigs_no_fragments baseFields rs hnone

/-- Witness for C9: scalar plugin markers `P`, `Q`, `R` concatenate in
registration order, and a single fragmentless renderer changes nothing. -/
theorem mergeRendererConfigs_merge_order_witness :
    mergeRendererConfigs
        (ConfigValue.obj [("plugins", ConfigValue.arr [ConfigValue.scalar "P"])])
        { renderers := some
            [ { viteConfig := some (ConfigValue.obj
                  [("plugins", ConfigValue.arr [ConfigValue.scalar "Q"])]) },
              { viteConfig := some (ConfigValue.obj
                  [("plugins", ConfigValue.arr [ConfigValue.scalar "R"])]) } ] }
      = ConfigValue.obj [("plugins", ConfigValue.arr
          [ConfigValue.scalar "P", ConfigValue.scalar "Q", ConfigValue.scalar "R"])]
    ∧ mergeRendererConfigs (ConfigValue.obj []) { renderers := some [{ viteConfig := none }] }
      = ConfigValue.obj [] :=
  mergeRendererConfigs_merge_order (ConfigValue.scalar "P") (ConfigValue.scalar "Q")
    (ConfigValue.scalar "R") [] [{ viteConfig := none }]
    (by intro r hr; rw [List.mem_singleton] at hr; subst hr; rfl)

/-- C10: the head-injector transform output does not depend on the html
document argument — two invocations with the same context and maps but
different documents return identical tag lists (the hook never reads or
rewrites the document; it only returns descriptors). -/
theorem injectHeadTransform_html_independent (cssUrlsByInputPath : String → Option (List String))
    (pageByRelOutputPath : String → Option PageInfo) (html₁ html₂ : String)
    (ctx : IndexHtmlTransformContext) :
    injectHeadTransform cssUrlsByInputPath pageByRelOutputPath html₁ ctx =
      injectHeadTransform cssUrlsByInputPath pageByRelOutputPath html₂ ctx := rfl
